import Mathlib

/-!
Verification development for the `MerchantGraphAnalyzer` of the Aegis
fraud-detection backend (`backend/services/graph_model.py`).

The Python class keeps an undirected user↔merchant interaction graph
(`merchant_graph`), a directed transaction-flow graph (`transaction_graph`)
and a result cache (`risk_cache`).  Here the state is shallowly embedded:

* node/edge attribute dictionaries become Lean structures;
* the two graphs become association lists keyed by identity strings
  (node insertion order preserved, exactly like `networkx` node views);
* Python `float` amounts and scores are modelled as exact rationals `ℚ`;
* `datetime` timestamps are modelled as integer seconds; a `timedelta`'s
  `total_seconds()/3600` becomes `(.. : ℚ)/3600`, its `.seconds` attribute
  becomes `Int.emod · 86400`, its `.days` becomes `Int.fdiv · 86400`
  (Python floor semantics);
* the `networkx`/`numpy` library calls that compute graph metrics are an
  external dependency of the repository; they are modelled as an `Oracle`
  of fallible functions, while every piece of logic written in
  `graph_model.py` itself is embedded directly;
* Python exceptions become `Except String`; a `try/except` block becomes a
  `match` on the embedded body.  (Python mutates attribute dictionaries in
  place before a later statement raises; since a raising
  `add_transaction_edge` call surfaces the exception to the caller, the
  partially mutated state is not observed through the embedded API and the
  error branch carries no state.)

Human-readable strings produced by the analyzer (risk factors,
recommendations, anomaly records) are embedded as inductive tags carrying
the data interpolated into the corresponding Python f-string.
-/

/-- The `node_type` attribute of a graph node (`'merchant'` or `'user'`). -/
inductive NType
  | merchant
  | user
deriving DecidableEq, Repr

/-- Risk factor strings appended to `risk_analysis["factors"]`, one tag per
distinct f-string in the source, carrying the interpolated value. -/
inductive Factor
  | unknownMerchant
  | analysisError
  | highDegreeCentrality (v : ℚ)
  | highBetweennessCentrality (v : ℚ)
  | suspiciousClustering (v : ℚ)
  | largeTightCommunity (n : Nat)
  | highTransactionVelocity (v : ℚ)
  | highActivityNewMerchant
  | lowCustomerDiversity
  | veryFrequentTransactions (n : Nat)
  | highlyVariableAmounts
  | newMerchantRelationship
deriving DecidableEq, Repr

/-- Network anomaly records produced by `_detect_network_anomalies`; the
`type`/`description`/`severity` fields are fixed per variant in the source,
so each record is one tag (the chain variant carries the chain length that
is interpolated into its description). -/
inductive Anomaly
  | circularTransactions
  | transactionBurst
  | merchantChain (n : Nat)
  | isolatedCluster
deriving DecidableEq, Repr

/-- Recommendation strings of `_generate_recommendations`, one tag per
distinct string literal in the source. -/
inductive Rec
  | immediateReview
  | temporaryLimits
  | manualReview
  | enhancedMonitoring
  | weeklyReview
  | velocityLimits
  | standardMonitoring
  | routineReports
  | lowRisk
  | launderingHubWarning
  | velocityBasedLimits
  | collusionInvestigation
deriving DecidableEq, Repr

/-- Attribute dictionary of a `merchant_graph` node.  Merchant nodes keep a
`unique_customers` set and user nodes a `unique_merchants` set; both are the
single `counterparties` field here, and `node_type` records which of the two
dictionary keys exists (an access under the wrong key is a Python
`KeyError`, which the embedding surfaces wherever the source would). -/
structure NodeData where
  node_type : NType
  total_transactions : Nat
  total_amount : ℚ
  counterparties : List String
  first_seen : Int
  last_seen : Int
deriving DecidableEq, Repr

/-- Attribute dictionary of a `merchant_graph` edge. -/
structure EdgeData where
  transaction_count : Nat
  total_amount : ℚ
  first_transaction : Int
  last_transaction : Int
  amounts : List ℚ
deriving DecidableEq, Repr

/-- The `centrality_metrics` dictionary of `_analyze_centrality`. -/
structure CentralityMetrics where
  degree : ℚ
  betweenness : ℚ
  closeness : ℚ
deriving DecidableEq, Repr

/-- The `clustering_metrics` dictionary of `_analyze_clustering`. -/
structure ClusteringMetrics where
  local_clustering : ℚ
  global_clustering : ℚ
  community_size : Nat
  total_communities : Nat
deriving DecidableEq, Repr

/-- The `velocity_metrics` dictionary of `_analyze_velocity`. -/
structure VelocityMetrics where
  transactions_per_hour : ℚ
  amount_per_hour : ℚ
  unique_customers : Nat
  avg_transaction_amount : ℚ
  time_span_hours : ℚ
deriving DecidableEq, Repr

/-- Return dictionary of the three `_analyze_*` metric helpers:
`{"metrics": ..., "risk_contribution": ..., "factors": ...}`.  The
`except`-branch default `{"metrics": {}, ...}` is `metrics := none`. -/
structure Contrib (M : Type) where
  metrics : Option M
  risk_contribution : ℚ
  factors : List Factor
deriving DecidableEq, Repr

/-- The `relationship_metrics` dictionary of
`_analyze_user_merchant_relationship`. -/
structure RelMetrics where
  transaction_count : Nat
  total_amount : ℚ
  avg_amount : ℚ
  relationship_age_days : Int
deriving DecidableEq, Repr

/-- Return dictionary of `_analyze_user_merchant_relationship`; the
new-relationship branch returns no `relationship_metrics` key
(`relationship_metrics := none`). -/
structure RelResult where
  risk_contribution : ℚ
  factors : List Factor
  relationship_metrics : Option RelMetrics
deriving DecidableEq, Repr

/-- The `risk_analysis` dictionary returned by `analyze_merchant_risk`.
The three `*_metrics` fields hold the full sub-analysis dictionaries, as in
the source; their `{}` initial value (still present on the unknown-merchant
return and absent from the degraded error dictionary) is `none`.  The
`error` key, present only on the degraded result, is `error_msg`. -/
structure RiskResult where
  merchant_id : String
  risk_score : ℚ
  factors : List Factor
  centrality_metrics : Option (Contrib CentralityMetrics)
  clustering_metrics : Option (Contrib ClusteringMetrics)
  velocity_metrics : Option (Contrib VelocityMetrics)
  network_anomalies : List Anomaly
  recommendations : List Rec
  error_msg : Option String
deriving DecidableEq, Repr

/-- Whole-analyzer state: `merchant_graph` (nodes + edges), the directed
`transaction_graph` (only its arc set matters to the source's path
queries), and `risk_cache` mapping key strings to (result, computation
timestamp) pairs. -/
structure GraphState where
  nodes : List (String × NodeData)
  edges : List ((String × String) × EdgeData)
  transaction_graph : List (String × String)
  risk_cache : List (String × (RiskResult × Int))
deriving DecidableEq, Repr

/-- Fresh analyzer state (`MerchantGraphAnalyzer.__init__`). -/
def emptyState : GraphState := ⟨[], [], [], []⟩

/-- Configuration constant `self.cache_ttl = 3600`. -/
def cache_ttl : Int := 3600

/-- Configuration constant `self.high_centrality_threshold = 0.8`. -/
def high_centrality_threshold : ℚ := 4/5

/-- Configuration constant `self.suspicious_clustering_threshold = 0.9`. -/
def suspicious_clustering_threshold : ℚ := 9/10

/-- Configuration constant `self.velocity_threshold = 100`. -/
def velocity_threshold : ℚ := 100

/-- Node attribute lookup (`self.merchant_graph.nodes[x]`, as an `Option`). -/
def getNode (g : GraphState) (x : String) : Option NodeData :=
  (g.nodes.find? (fun kv => kv.1 == x)).map (fun kv => kv.2)

/-- Membership test `self.merchant_graph.has_node(x)`. -/
def hasNodeB (g : GraphState) (x : String) : Bool :=
  (getNode g x).isSome

/-- Node insertion `self.merchant_graph.add_node(x, ...)`. -/
def addNode (g : GraphState) (x : String) (d : NodeData) : GraphState :=
  { g with nodes := g.nodes ++ [(x, d)] }

/-- In-place node attribute update (mutating the `nodes[x]` dictionary). -/
def setNode (g : GraphState) (x : String) (d : NodeData) : GraphState :=
  { g with nodes := g.nodes.map (fun kv => if kv.1 == x then (x, d) else kv) }

/-- Whether an undirected edge key connects `a` and `b` (`nx.Graph` edges
are unordered pairs). -/
def edgeMatch (k : String × String) (a b : String) : Bool :=
  (k.1 == a && k.2 == b) || (k.1 == b && k.2 == a)

/-- Edge attribute lookup on a raw edge list. -/
def findEdgeL (l : List ((String × String) × EdgeData)) (a b : String) :
    Option EdgeData :=
  (l.find? (fun e => edgeMatch e.1 a b)).map (fun e => e.2)

/-- Edge attribute lookup `self.merchant_graph.edges[a, b]` (as an
`Option`; `has_edge` is its `isSome`). -/
def findEdge (g : GraphState) (a b : String) : Option EdgeData :=
  findEdgeL g.edges a b

/-- Membership test `self.merchant_graph.has_edge(a, b)`. -/
def hasEdgeB (g : GraphState) (a b : String) : Bool :=
  (findEdge g a b).isSome

/-- In-place edge attribute update on a raw edge list. -/
def setEdgeL (l : List ((String × String) × EdgeData)) (a b : String)
    (d : EdgeData) : List ((String × String) × EdgeData) :=
  l.map (fun e => if edgeMatch e.1 a b then (e.1, d) else e)

/-- In-place edge attribute update (mutating the `edges[a, b]` dictionary). -/
def setEdge (g : GraphState) (a b : String) (d : EdgeData) : GraphState :=
  { g with edges := setEdgeL g.edges a b d }

/-- Edge insertion `self.merchant_graph.add_edge(a, b, ...)`. -/
def addEdge (g : GraphState) (a b : String) (d : EdgeData) : GraphState :=
  { g with edges := g.edges ++ [((a, b), d)] }

/-- Python `set.add` on an identity set (sets are modelled as
duplicate-free insertion lists; only size and membership are consumed). -/
def insertStr (x : String) (l : List String) : List String :=
  if l.contains x then l else l ++ [x]

/-- Arc insertion into the directed `transaction_graph`
(`DiGraph.add_edge` replaces attributes of an existing arc; only the arc
set is consumed by the source's path queries). -/
def insertPair (p : String × String) (l : List (String × String)) :
    List (String × String) :=
  if l.contains p then l else l ++ [p]

/-- Whether `needle` is a prefix of `hay` (character lists). -/
def listStartsWith : List Char → List Char → Bool
  | [], _ => true
  | _ :: _, [] => false
  | a :: as, b :: bs => a == b && listStartsWith as bs

/-- Whether `needle` occurs contiguously inside `hay` (character lists). -/
def listContainsSub (needle : List Char) : List Char → Bool
  | [] => needle.isEmpty
  | b :: bs => listStartsWith needle (b :: bs) || listContainsSub needle bs

/-- Python's substring test `needle in hay` on strings. -/
def strContains (needle hay : String) : Bool :=
  listContainsSub needle.toList hay.toList

/-- Cache invalidation `_invalidate_cache`: every key containing either
identity as a substring is deleted. -/
def invalidate_cache (g : GraphState) (merchant_id user_id : String) :
    GraphState :=
  let keep : String × (RiskResult × Int) → Bool :=
    fun kv => !(strContains merchant_id kv.1 || strContains user_id kv.1)
  { g with risk_cache := g.risk_cache.filter keep }

/-- Freshly created node attributes (`add_node` keyword arguments). -/
def newNode (t : NType) (ts : Int) : NodeData :=
  ⟨t, 0, 0, [], ts, ts⟩

/-- The four attribute updates applied to each endpoint of a transaction
(`+= 1`, `+= amount`, `.add(counterparty)`, `last_seen = max(...)`;
`first_seen` is never touched after node creation). -/
def nodeUpd (d : NodeData) (counterparty : String) (amount : ℚ) (ts : Int) :
    NodeData :=
  { d with
    total_transactions := d.total_transactions + 1
    total_amount := d.total_amount + amount
    counterparties := insertStr counterparty d.counterparties
    last_seen := max d.last_seen ts }

/-- Lines 39–55 of the source: create the merchant node, then the user
node, when absent. -/
def ensureNodes (g : GraphState) (user_id merchant_id : String) (ts : Int) :
    GraphState :=
  let g1 := if hasNodeB g merchant_id then g
            else addNode g merchant_id (newNode NType.merchant ts)
  if hasNodeB g1 user_id then g1
  else addNode g1 user_id (newNode NType.user ts)

/-- Lines 57–69 of the source: update the merchant node then the user node.
Accessing `unique_customers` on a user node (or `unique_merchants` on a
merchant node) is a `KeyError`, hence the `node_type` guards. -/
def updNodes (g : GraphState) (user_id merchant_id : String) (amount : ℚ)
    (ts : Int) : Except String GraphState :=
  match getNode g merchant_id with
  | none => .error ("KeyError: merchant node")
  | some dm =>
    if dm.node_type = NType.merchant then
      match getNode (setNode g merchant_id (nodeUpd dm user_id amount ts)) user_id with
      | none => .error ("KeyError: user node")
      | some du =>
        if du.node_type = NType.user then
          .ok (setNode (setNode g merchant_id (nodeUpd dm user_id amount ts))
                user_id (nodeUpd du merchant_id amount ts))
        else .error ("KeyError: unique_merchants")
    else .error ("KeyError: unique_customers")

/-- Existing-edge update of lines 73–77. -/
def edgeUpd (e : EdgeData) (amount : ℚ) (ts : Int) : EdgeData :=
  { e with
    transaction_count := e.transaction_count + 1
    total_amount := e.total_amount + amount
    last_transaction := ts
    amounts := e.amounts ++ [amount] }

/-- Fresh-edge attributes of lines 79–84. -/
def newEdge (amount : ℚ) (ts : Int) : EdgeData :=
  ⟨1, amount, ts, ts, [amount]⟩

/-- Arc insertion into the flow graph. -/
def withFlow (g : GraphState) (user_id merchant_id : String) : GraphState :=
  { g with transaction_graph := insertPair (user_id, merchant_id) g.transaction_graph }

/-- Lines 71–90 of the source: add or update the undirected edge, then add
the directed flow arc. -/
def updEdgeFlow (g : GraphState) (user_id merchant_id : String) (amount : ℚ)
    (ts : Int) : GraphState :=
  match findEdge g user_id merchant_id with
  | some e => withFlow (setEdge g user_id merchant_id (edgeUpd e amount ts)) user_id merchant_id
  | none => withFlow (addEdge g user_id merchant_id (newEdge amount ts)) user_id merchant_id

/-- The mutation entry point `add_transaction_edge` (the spec's
`record_transaction`).  The `metadata` argument is only stored on flow
arcs and never read back, so it is dropped.  Note that no validation of
`amount` is performed anywhere in the source. -/
def add_transaction_edge (g : GraphState) (user_id merchant_id : String)
    (amount : ℚ) (ts : Int) : Except String GraphState :=
  match updNodes (ensureNodes g user_id merchant_id ts) user_id merchant_id amount ts with
  | .error e => .error e
  | .ok g2 => .ok (invalidate_cache (updEdgeFlow g2 user_id merchant_id amount ts)
      merchant_id user_id)

/-- One observed transaction, as fed to `add_transaction_edge`. -/
structure Call where
  user : String
  merchant : String
  amount : ℚ
  ts : Int
deriving DecidableEq, Repr

/-- A sequence of `add_transaction_edge` calls, propagating any raised
exception. -/
def runCalls (g : GraphState) : List Call → Except String GraphState
  | [] => .ok g
  | c :: cs =>
    match add_transaction_edge g c.user c.merchant c.amount c.ts with
    | .error e => .error e
    | .ok g' => runCalls g' cs

/-- Timestamps of the calls in a history that touch node `x` (i.e. have
`x` as either endpoint), in order. -/
def tsTouching (x : String) (cs : List Call) : List Int :=
  (cs.filter (fun c => c.user == x || c.merchant == x)).map Call.ts

/-- External graph-metric routines (`networkx`/`numpy` library calls made
by the analyzer).  They are not code of this repository; each is modelled
as an arbitrary fallible function of the current graph, so every theorem
quantifying over an `Oracle` holds for whatever the library computes —
including any exception it raises. -/
structure Oracle where
  degree_centrality : GraphState → String → Except String ℚ
  betweenness_centrality : GraphState → String → Except String ℚ
  is_connected : GraphState → Except String Bool
  closeness_centrality : GraphState → String → Except String ℚ
  clustering : GraphState → String → Except String ℚ
  average_clustering : GraphState → Except String ℚ
  connected_components : GraphState → Except String (List (List String))
  node_connected_component : GraphState → String → Except String (List String)
  has_path : GraphState → String → String → Except String Bool
  shortest_path_len : GraphState → String → String → Except String Nat

/-- An oracle whose every call raises, exercising all `except` branches. -/
def errOracle : Oracle where
  degree_centrality := fun _ _ => .error ("nx")
  betweenness_centrality := fun _ _ => .error ("nx")
  is_connected := fun _ => .error ("nx")
  closeness_centrality := fun _ _ => .error ("nx")
  clustering := fun _ _ => .error ("nx")
  average_clustering := fun _ => .error ("nx")
  connected_components := fun _ => .error ("nx")
  node_connected_component := fun _ _ => .error ("nx")
  has_path := fun _ _ _ => .error ("nx")
  shortest_path_len := fun _ _ _ => .error ("nx")

/-- The `try` body of `_analyze_centrality`: metric computation followed by
threshold assessment (degree > 0.8 adds 0.3, betweenness > 0.8 adds 0.2). -/
def centralityBody (O : Oracle) (g : GraphState) (merchant_id : String) :
    Except String (Contrib CentralityMetrics) := do
  let ms ←
    if 1 < g.nodes.length then do
      let deg ← O.degree_centrality g merchant_id
      let betw ← if g.nodes.length < 1000 then O.betweenness_centrality g merchant_id
                 else pure 0
      let conn ← O.is_connected g
      let clos ← if conn then O.closeness_centrality g merchant_id else pure 0
      pure (⟨deg, betw, clos⟩ : CentralityMetrics)
    else
      pure (⟨0, 0, 0⟩ : CentralityMetrics)
  let rc : ℚ :=
    (if high_centrality_threshold < ms.degree then 3/10 else 0) +
    (if high_centrality_threshold < ms.betweenness then 2/10 else 0)
  let fs : List Factor :=
    (if high_centrality_threshold < ms.degree
     then [Factor.highDegreeCentrality ms.degree] else []) ++
    (if high_centrality_threshold < ms.betweenness
     then [Factor.highBetweennessCentrality ms.betweenness] else [])
  pure ⟨some ms, rc, fs⟩

/-- `_analyze_centrality`, with its `except` branch returning the default
contribution. -/
def analyze_centrality (O : Oracle) (g : GraphState) (merchant_id : String) :
    Contrib CentralityMetrics :=
  match centralityBody O g merchant_id with
  | .ok r => r
  | .error _ => ⟨none, 0, []⟩

/-- The `try` body of `_analyze_clustering`: local/global clustering,
community size via connected components, then threshold assessment. -/
def clusteringBody (O : Oracle) (g : GraphState) (merchant_id : String) :
    Except String (Contrib ClusteringMetrics) := do
  let lc ← O.clustering g merchant_id
  let gc ← O.average_clustering g
  let comms ← O.connected_components g
  let csize := ((comms.find? (fun c => c.contains merchant_id)).map List.length).getD 0
  let ms : ClusteringMetrics := ⟨lc, gc, csize, comms.length⟩
  let rc : ℚ :=
    (if suspicious_clustering_threshold < lc then 2/10 else 0) +
    (if 50 < csize ∧ 7/10 < lc then 3/10 else 0)
  let fs : List Factor :=
    (if suspicious_clustering_threshold < lc
     then [Factor.suspiciousClustering lc] else []) ++
    (if 50 < csize ∧ 7/10 < lc then [Factor.largeTightCommunity csize] else [])
  pure ⟨some ms, rc, fs⟩

/-- `_analyze_clustering`, with its `except` branch returning the default
contribution. -/
def analyze_clustering (O : Oracle) (g : GraphState) (merchant_id : String) :
    Contrib ClusteringMetrics :=
  match clusteringBody O g merchant_id with
  | .ok r => r
  | .error _ => ⟨none, 0, []⟩

/-- The raw time span `(last_seen - first_seen).total_seconds() / 3600`
before the zero adjustment. -/
def rawSpanHours (d : NodeData) : ℚ :=
  ((d.last_seen - d.first_seen : Int) : ℚ) / 3600

/-- `_analyze_velocity`.  The whole body sits in a `try`: building the
metrics dictionary raises `KeyError` on a node without a
`unique_customers` key (a user node) and `ZeroDivisionError` when
`total_transactions` is zero, both caught by the `except` branch; after the
zero-span adjustment the hour divisor itself can never be zero. -/
def analyze_velocity (g : GraphState) (merchant_id : String) :
    Contrib VelocityMetrics :=
  match getNode g merchant_id with
  | none => ⟨none, 0, []⟩
  | some d =>
    if d.node_type = NType.merchant ∧ d.total_transactions ≠ 0 then
      let span := if rawSpanHours d = 0 then 1 else rawSpanHours d
      let tph := (d.total_transactions : ℚ) / span
      let ms : VelocityMetrics :=
        ⟨tph, d.total_amount / span, d.counterparties.length,
         d.total_amount / (d.total_transactions : ℚ), span⟩
      let lowDiversity :=
        (d.counterparties.length : ℚ) / (d.total_transactions : ℚ) < 1/10
      let rc : ℚ :=
        (if velocity_threshold < tph then 3/10 else 0) +
        (if span < 24 ∧ 10 < tph then 2/10 else 0) +
        (if lowDiversity then 2/10 else 0)
      let fs : List Factor :=
        (if velocity_threshold < tph then [Factor.highTransactionVelocity tph] else []) ++
        (if span < 24 ∧ 10 < tph then [Factor.highActivityNewMerchant] else []) ++
        (if lowDiversity then [Factor.lowCustomerDiversity] else [])
      ⟨some ms, rc, fs⟩
    else ⟨none, 0, []⟩

/-- `_detect_circular_pattern`: a directed path from the merchant back to
the user of at most 5 nodes; its `except` branch returns `False`. -/
def detect_circular_pattern (O : Oracle) (g : GraphState)
    (user_id merchant_id : String) : Bool :=
  match (do
    let hp ← O.has_path g merchant_id user_id
    if hp then do
      let len ← O.shortest_path_len g merchant_id user_id
      pure (decide (len ≤ 5))
    else pure false : Except String Bool) with
  | .ok b => b
  | .error _ => false

/-- `_detect_burst_pattern`: whole observed span under one hour with more
than 20 transactions. -/
def detect_burst_pattern (g : GraphState) (merchant_id : String) : Bool :=
  match getNode g merchant_id with
  | none => false
  | some d => decide (rawSpanHours d < 1) && decide (20 < d.total_transactions)

/-- Undirected neighbours of a node (`self.merchant_graph.neighbors`,
which yields each neighbour once). -/
def neighbors (g : GraphState) (x : String) : List String :=
  (g.edges.foldr
    (fun e acc =>
      if e.1.1 == x then e.1.2 :: acc
      else if e.1.2 == x then e.1.1 :: acc else acc) []).dedup

/-- Whether a present node has the given `node_type` (an absent node would
be a `KeyError`, caught by the callers' `except` branches which all yield
a result identical to skipping the node). -/
def nodeTypeIs (g : GraphState) (x : String) (t : NType) : Bool :=
  match getNode g x with
  | some d => d.node_type = t
  | none => false

/-- `_detect_merchant_chain`: distinct merchants reachable through one
shared user, plus the merchant itself. -/
def detect_merchant_chain (g : GraphState) (merchant_id : String) : Nat :=
  let userNbrs := (neighbors g merchant_id).filter (fun n => nodeTypeIs g n NType.user)
  let merchantNbrs := userNbrs.flatMap
    (fun n => (neighbors g n).filter
      (fun mn => nodeTypeIs g mn NType.merchant && mn != merchant_id))
  merchantNbrs.dedup.length + 1

/-- `_is_isolated_cluster`: connected component below 10 members with
fewer than 2 edge endpoints leaving it; its `except` branch returns
`False`. -/
def is_isolated_cluster (O : Oracle) (g : GraphState) (merchant_id : String) :
    Bool :=
  match (do
    let comp ← O.node_connected_component g merchant_id
    if comp.length < 10 then
      let ext := (comp.map
        (fun x => ((neighbors g x).filter (fun nb => !(comp.contains nb))).length)).sum
      pure (decide (ext < 2))
    else pure false : Except String Bool) with
  | .ok b => b
  | .error _ => false

/-- Python truthiness of the optional `user_id` argument (`if user_id:`;
`None` and the empty string are falsy). -/
def userTruthy : Option String → Bool
  | some s => !s.isEmpty
  | none => false

/-- `_detect_network_anomalies`: the four detectors in source order, each
appending one fixed record. -/
def detect_network_anomalies (O : Oracle) (g : GraphState)
    (merchant_id : String) (user_id : Option String) : List Anomaly :=
  (match user_id with
   | some uid =>
     if !uid.isEmpty && detect_circular_pattern O g uid merchant_id
     then [Anomaly.circularTransactions] else []
   | none => []) ++
  (if detect_burst_pattern g merchant_id then [Anomaly.transactionBurst] else []) ++
  (let n := detect_merchant_chain g merchant_id
   if 5 < n then [Anomaly.merchantChain n] else []) ++
  (if is_isolated_cluster O g merchant_id then [Anomaly.isolatedCluster] else [])

/-- Population variance `np.var` over an amount list. -/
def npVar (xs : List ℚ) : ℚ :=
  let n : ℚ := xs.length
  let mean := xs.sum / n
  ((xs.map (fun x => (x - mean) ^ 2)).sum) / n

/-- `_analyze_user_merchant_relationship`.  This helper has no `try`
block of its own: with no edge it returns the fixed new-relationship
contribution, and with an edge whose `transaction_count` is zero the
`avg_amount` division raises a `ZeroDivisionError` that propagates to
`analyze_merchant_risk`'s handler. -/
def analyze_user_merchant_relationship (g : GraphState)
    (user_id merchant_id : String) : Except String RelResult :=
  match findEdge g user_id merchant_id with
  | none => .ok ⟨1/10, [Factor.newMerchantRelationship], none⟩
  | some e =>
    if e.transaction_count = 0 then .error ("ZeroDivisionError")
    else
      let avg := e.total_amount / (e.transaction_count : ℚ)
      let highVar := 1 < e.amounts.length ∧ avg * 2 < npVar e.amounts
      let rc : ℚ :=
        (if 50 < e.transaction_count then 2/10 else 0) +
        (if highVar then 1/10 else 0)
      let fs : List Factor :=
        (if 50 < e.transaction_count
         then [Factor.veryFrequentTransactions e.transaction_count] else []) ++
        (if highVar then [Factor.highlyVariableAmounts] else [])
      .ok ⟨rc, fs, some ⟨e.transaction_count, e.total_amount, avg,
        Int.fdiv (e.last_transaction - e.first_transaction) 86400⟩⟩

/-- `_generate_recommendations`, tier part (score thresholds 0.8 / 0.6 /
0.4). -/
def tierRecs (score : ℚ) : List Rec :=
  if 4/5 < score then [Rec.immediateReview, Rec.temporaryLimits, Rec.manualReview]
  else if 3/5 < score then [Rec.enhancedMonitoring, Rec.weeklyReview, Rec.velocityLimits]
  else if 2/5 < score then [Rec.standardMonitoring, Rec.routineReports]
  else [Rec.lowRisk]

/-- `_generate_recommendations`, per-factor part: the source substring
tests `"High degree centrality" in factor` etc. match exactly the factors
built from the corresponding f-strings, i.e. these three tags. -/
def factorRecs : Factor → List Rec
  | Factor.highDegreeCentrality _ => [Rec.launderingHubWarning]
  | Factor.highTransactionVelocity _ => [Rec.velocityBasedLimits]
  | Factor.largeTightCommunity _ => [Rec.collusionInvestigation]
  | _ => []

/-- `_generate_recommendations`. -/
def generate_recommendations (score : ℚ) (factors : List Factor) : List Rec :=
  tierRecs score ++ factors.flatMap factorRecs

/-- Contribution of the optional user-merchant relationship step (lines
161–165): skipped for a falsy `user_id`, otherwise the fallible
relationship analysis, of which only score contribution and factors are
consumed. -/
def relContribution (g : GraphState) (user_id : Option String)
    (merchant_id : String) : Except String (ℚ × List Factor) :=
  match user_id with
  | some uid =>
    if uid.isEmpty then .ok (0, [])
    else
      match analyze_user_merchant_relationship g uid merchant_id with
      | .ok r => .ok (r.risk_contribution, r.factors)
      | .error e => .error e
  | none => .ok (0, [])

/-- The unknown-merchant short-circuit result (lines 129–132): score 0.1,
single factor, all other fields still at their initial empty values. -/
def unknownResult (merchant_id : String) : RiskResult :=
  ⟨merchant_id, 1/10, [Factor.unknownMerchant], none, none, none, [], [], none⟩

/-- The degraded result built by the `except` handler (lines 180–187):
fixed score 0.5, factor list `["Analysis error"]`, and the stringified
exception under the `error` key. -/
def degradedResult (merchant_id : String) (e : String) : RiskResult :=
  ⟨merchant_id, 1/2, [Factor.analysisError], none, none, none, [], [], some e⟩

/-- The known-merchant part of `analyze_merchant_risk`'s `try` body
(lines 134–178 minus caching): in the source the relationship analysis
runs after the three metric contributions and the anomaly scan, and an
exception it raises abandons the whole accumulated dictionary, so the
fallible step is sequenced first here with an identical result.  The
final score is the clamped sum of the five contributions. -/
def analyzeMain (O : Oracle) (g : GraphState) (merchant_id : String)
    (user_id : Option String) : Except String RiskResult :=
  match relContribution g user_id merchant_id with
  | .error e => .error e
  | .ok rel =>
    let c := analyze_centrality O g merchant_id
    let cl := analyze_clustering O g merchant_id
    let v := analyze_velocity g merchant_id
    let an := detect_network_anomalies O g merchant_id user_id
    let score0 := c.risk_contribution + cl.risk_contribution +
      v.risk_contribution + (an.length : ℚ) * (1/10) + rel.1
    let score := min 1 (max 0 score0)
    let fs := c.factors ++ cl.factors ++ v.factors ++ rel.2
    .ok ⟨merchant_id, score, fs, some c, some cl, some v, an,
      generate_recommendations score fs, none⟩

/-- Cache key `f"merchant_risk_{merchant_id}_{user_id or 'none'}"` (a
falsy `user_id` — absent or empty — renders as `'none'`). -/
def cacheKey (merchant_id : String) (user_id : Option String) : String :=
  "merchant_risk_" ++ merchant_id ++ "_" ++
    (match user_id with
     | some s => if s.isEmpty then "none" else s
     | none => "none")

/-- Cache write `self.risk_cache[key] = (result, now)` (dictionary
assignment: replaces an existing entry, otherwise appends). -/
def cacheStore (g : GraphState) (key : String) (r : RiskResult) (now : Int) :
    GraphState :=
  if g.risk_cache.any (fun kv => kv.1 == key) then
    { g with risk_cache :=
        g.risk_cache.map (fun kv => if kv.1 == key then (key, (r, now)) else kv) }
  else
    { g with risk_cache := g.risk_cache ++ [(key, (r, now))] }

/-- The lazy cache read (lines 112–115): an entry is served when
`(utcnow() - timestamp).seconds < cache_ttl`; a `timedelta`'s `.seconds`
attribute is its total seconds modulo 86400 (floor semantics). -/
def freshCached (g : GraphState) (key : String) (now : Int) :
    Option RiskResult :=
  match g.risk_cache.find? (fun kv => kv.1 == key) with
  | some kv => if (now - kv.2.2).emod 86400 < cache_ttl then some kv.2.1 else none
  | none => none

/-- The uncached path of `analyze_merchant_risk`: unknown-merchant
short-circuit (returned without being cached), or the full analysis whose
successful result is cached, or the degraded fail-safe result (also not
cached). -/
def analyzeUncached (O : Oracle) (g : GraphState) (merchant_id : String)
    (user_id : Option String) (now : Int) : RiskResult × GraphState :=
  if hasNodeB g merchant_id = false then (unknownResult merchant_id, g)
  else
    match analyzeMain O g merchant_id user_id with
    | .ok r => (r, cacheStore g (cacheKey merchant_id user_id) r now)
    | .error e => (degradedResult merchant_id e, g)

/-- The read entry point `analyze_merchant_risk`.  `now` stands for the
`datetime.utcnow()` readings (taken once per call here).  The returned
pair is (result dictionary, analyzer state after the call) — the source
returns only the dictionary and mutates `self`. -/
def analyze_merchant_risk (O : Oracle) (g : GraphState) (merchant_id : String)
    (user_id : Option String) (now : Int) : RiskResult × GraphState :=
  match freshCached g (cacheKey merchant_id user_id) now with
  | some r => (r, g)
  | none => analyzeUncached O g merchant_id user_id now

/-! Association-list lemmas used to destructure the state operations. -/

lemma find?_append_single {α : Type} (p : α → Bool) (l : List α) (a : α) :
    (l ++ [a]).find? p =
      match l.find? p with
      | some v => some v
      | none => if p a then some a else none := by
  induction l with
  | nil => cases h : p a <;> simp [List.find?, h]
  | cons b l ih => cases h : p b <;> simp [List.find?, h, ih]

lemma find?_map_keyfix {α : Type} (p : α → Bool) (f : α → α) (l : List α)
    (hf : ∀ x, p (f x) = p x) :
    (l.map f).find? p = (l.find? p).map f := by
  induction l with
  | nil => rfl
  | cons b l ih => cases h : p b <;> simp [List.find?, hf, h, ih]

lemma getNode_addNode (g : GraphState) (y : String) (d : NodeData) (x : String) :
    getNode (addNode g y d) x =
      match getNode g x with
      | some v => some v
      | none => if y == x then some d else none := by
  unfold getNode addNode
  dsimp only
  rw [find?_append_single]
  cases h : g.nodes.find? (fun kv => kv.1 == x) with
  | none => cases h2 : y == x <;> simp [h, h2]
  | some kv => simp [h]

lemma getNode_addNode_of_isSome (g : GraphState) (y : String) (d : NodeData)
    (x : String) (v : NodeData) (h : getNode g x = some v) :
    getNode (addNode g y d) x = some v := by
  rw [getNode_addNode, h]

lemma getNode_addNode_self (g : GraphState) (y : String) (d : NodeData)
    (h : getNode g y = none) : getNode (addNode g y d) y = some d := by
  rw [getNode_addNode, h]
  simp

lemma getNode_addNode_ne (g : GraphState) (y : String) (d : NodeData)
    (x : String) (h : y ≠ x) : getNode (addNode g y d) x = getNode g x := by
  rw [getNode_addNode]
  cases h1 : getNode g x with
  | none => simp [h]
  | some v => rfl

lemma getNode_setNode (g : GraphState) (y : String) (d : NodeData) (x : String) :
    getNode (setNode g y d) x =
      (getNode g x).map (fun v => if x == y then d else v) := by
  unfold getNode setNode
  dsimp only
  rw [find?_map_keyfix]
  · cases h : g.nodes.find? (fun kv => kv.1 == x) with
    | none => rfl
    | some kv =>
      have hx : kv.1 = x := by
        have := List.find?_some h
        simpa using this
      by_cases h2 : x = y
      · simp [hx, h2]
      · simp [hx, h2]
  · intro kv
    by_cases h2 : kv.1 = y
    · simp [h2]
    · simp [beq_eq_false_iff_ne, Ne, h2]

lemma getNode_setNode_self (g : GraphState) (y : String) (d : NodeData)
    (v : NodeData) (h : getNode g y = some v) :
    getNode (setNode g y d) y = some d := by
  rw [getNode_setNode, h]
  simp

lemma getNode_setNode_ne (g : GraphState) (y : String) (d : NodeData)
    (x : String) (h : x ≠ y) : getNode (setNode g y d) x = getNode g x := by
  rw [getNode_setNode]
  cases h1 : getNode g x with
  | none => rfl
  | some v => simp [beq_eq_false_iff_ne, Ne, h]

lemma findEdgeL_setEdgeL (l : List ((String × String) × EdgeData))
    (a b : String) (d : EdgeData) (x y : String) :
    findEdgeL (setEdgeL l a b d) x y =
      (l.find? (fun e => edgeMatch e.1 x y)).map
        (fun e => if edgeMatch e.1 a b then d else e.2) := by
  unfold findEdgeL setEdgeL
  rw [find?_map_keyfix]
  · cases h : l.find? (fun e => edgeMatch e.1 x y) with
    | none => simp [h]
    | some e =>
      by_cases h2 : edgeMatch e.1 a b = true
      · simp [h2]
      · simp [h2]
  · intro e
    by_cases h2 : edgeMatch e.1 a b = true
    · simp [h2]
    · simp [h2]

lemma findEdgeL_setEdgeL_self (l : List ((String × String) × EdgeData))
    (a b : String) (d : EdgeData) (e0 : EdgeData)
    (h : findEdgeL l a b = some e0) :
    findEdgeL (setEdgeL l a b d) a b = some d := by
  rw [findEdgeL_setEdgeL]
  unfold findEdgeL at h
  cases h1 : l.find? (fun e => edgeMatch e.1 a b) with
  | none => rw [h1] at h; exact Option.noConfusion h
  | some kv =>
    have h2 : edgeMatch kv.1 a b = true := by
      have h3 := List.find?_some h1
      simpa using h3
    simp [h1, h2]

lemma findEdgeL_setEdgeL_isSome (l : List ((String × String) × EdgeData))
    (a b : String) (d : EdgeData) (x y : String) :
    (findEdgeL (setEdgeL l a b d) x y).isSome = (findEdgeL l x y).isSome := by
  rw [findEdgeL_setEdgeL]
  unfold findEdgeL
  cases h : l.find? (fun e => edgeMatch e.1 x y) <;> simp [h]

lemma findEdgeL_append (l : List ((String × String) × EdgeData))
    (k : String × String) (e : EdgeData) (a b : String) :
    findEdgeL (l ++ [(k, e)]) a b =
      match findEdgeL l a b with
      | some v => some v
      | none => if edgeMatch k a b then some e else none := by
  unfold findEdgeL
  rw [find?_append_single]
  cases h : l.find? (fun x => edgeMatch x.1 a b) with
  | none => cases h2 : edgeMatch k a b <;> simp [h2]
  | some v => simp

lemma findEdgeL_some_mem (l : List ((String × String) × EdgeData))
    (a b : String) (e : EdgeData) (h : findEdgeL l a b = some e) :
    ∃ k, (k, e) ∈ l := by
  unfold findEdgeL at h
  cases h1 : l.find? (fun x => edgeMatch x.1 a b) with
  | none => rw [h1] at h; exact Option.noConfusion h
  | some kv =>
    rw [h1] at h
    refine ⟨kv.1, ?_⟩
    have h2 : kv ∈ l := List.mem_of_find?_eq_some h1
    have h3 : kv.2 = e := by simpa using h
    rw [← h3]
    exact h2

lemma edgeMatch_self (a b : String) : edgeMatch (a, b) a b = true := by
  simp [edgeMatch]

/-! Anatomy of a successful `add_transaction_edge` call. -/

lemma setNode_edges (g : GraphState) (x : String) (d : NodeData) :
    (setNode g x d).edges = g.edges := rfl

lemma addNode_edges (g : GraphState) (x : String) (d : NodeData) :
    (addNode g x d).edges = g.edges := rfl

lemma setNode_cache (g : GraphState) (x : String) (d : NodeData) :
    (setNode g x d).risk_cache = g.risk_cache := rfl

lemma addNode_cache (g : GraphState) (x : String) (d : NodeData) :
    (addNode g x d).risk_cache = g.risk_cache := rfl

lemma ensureNodes_edges (g : GraphState) (u m : String) (ts : Int) :
    (ensureNodes g u m ts).edges = g.edges := by
  unfold ensureNodes
  dsimp only
  split <;> split <;> rfl

lemma ensureNodes_cache (g : GraphState) (u m : String) (ts : Int) :
    (ensureNodes g u m ts).risk_cache = g.risk_cache := by
  unfold ensureNodes
  dsimp only
  split <;> split <;> rfl

lemma withFlow_nodes (g : GraphState) (u m : String) :
    (withFlow g u m).nodes = g.nodes := rfl

lemma updEdgeFlow_nodes (g : GraphState) (u m : String) (a : ℚ) (ts : Int) :
    (updEdgeFlow g u m a ts).nodes = g.nodes := by
  unfold updEdgeFlow
  cases findEdge g u m <;> rfl

lemma updEdgeFlow_cache (g : GraphState) (u m : String) (a : ℚ) (ts : Int) :
    (updEdgeFlow g u m a ts).risk_cache = g.risk_cache := by
  unfold updEdgeFlow
  cases findEdge g u m <;> rfl

lemma updEdgeFlow_edges (g : GraphState) (u m : String) (a : ℚ) (ts : Int) :
    (updEdgeFlow g u m a ts).edges =
      match findEdgeL g.edges u m with
      | some e => setEdgeL g.edges u m (edgeUpd e a ts)
      | none => g.edges ++ [((u, m), newEdge a ts)] := by
  unfold updEdgeFlow findEdge
  cases h : findEdgeL g.edges u m <;> rfl

lemma invalidate_cache_nodes (g : GraphState) (m u : String) :
    (invalidate_cache g m u).nodes = g.nodes := rfl

lemma invalidate_cache_edges (g : GraphState) (m u : String) :
    (invalidate_cache g m u).edges = g.edges := rfl

lemma invalidate_cache_cache (g : GraphState) (m u : String) :
    (invalidate_cache g m u).risk_cache =
      g.risk_cache.filter
        (fun kv => !(strContains m kv.1 || strContains u kv.1)) := rfl

lemma hasNodeB_iff (g : GraphState) (x : String) :
    hasNodeB g x = true ↔ ∃ d, getNode g x = some d := by
  unfold hasNodeB
  exact Option.isSome_iff_exists

lemma getNode_ensure_m (g : GraphState) (u m : String) (ts : Int) :
    getNode (ensureNodes g u m ts) m =
      match getNode g m with
      | some d => some d
      | none => some (newNode NType.merchant ts) := by
  unfold ensureNodes
  dsimp only
  cases h1 : getNode g m with
  | some d =>
    have hb : hasNodeB g m = true := by
      rw [hasNodeB_iff]; exact ⟨d, h1⟩
    rw [hb]
    simp only [if_true]
    split
    · exact h1
    · by_cases h2 : u = m
      · subst h2
        rename_i h3
        rw [hasNodeB_iff] at h3
        exact absurd ⟨d, h1⟩ h3
      · rw [getNode_addNode_ne _ _ _ _ h2]
        exact h1
  | none =>
    have hb : hasNodeB g m = false := by
      cases h2 : hasNodeB g m
      · rfl
      · rw [hasNodeB_iff] at h2
        obtain ⟨d, hd⟩ := h2
        rw [h1] at hd
        exact Option.noConfusion hd
    rw [hb]
    simp only [Bool.false_eq_true, if_false]
    have hsome : getNode (addNode g m (newNode NType.merchant ts)) m =
        some (newNode NType.merchant ts) := getNode_addNode_self g m _ h1
    split
    · exact hsome
    · by_cases h2 : u = m
      · subst h2
        rename_i h3
        rw [hasNodeB_iff] at h3
        exact absurd ⟨_, hsome⟩ h3
      · rw [getNode_addNode_ne _ _ _ _ h2]
        exact hsome

lemma getNode_ensure_u (g : GraphState) (u m : String) (ts : Int) (hum : u ≠ m) :
    getNode (ensureNodes g u m ts) u =
      match getNode g u with
      | some d => some d
      | none => some (newNode NType.user ts) := by
  unfold ensureNodes
  dsimp only
  have hmid : ∀ gmid : GraphState, getNode gmid u = getNode g u →
      getNode (if hasNodeB gmid u then gmid
               else addNode gmid u (newNode NType.user ts)) u =
        match getNode g u with
        | some d => some d
        | none => some (newNode NType.user ts) := by
    intro gmid hg
    cases h1 : getNode g u with
    | some d =>
      have hb : hasNodeB gmid u = true := by
        rw [hasNodeB_iff]; exact ⟨d, hg.trans h1⟩
      rw [hb]
      simp only [if_true]
      exact hg.trans h1
    | none =>
      have hb : hasNodeB gmid u = false := by
        cases h2 : hasNodeB gmid u
        · rfl
        · rw [hasNodeB_iff] at h2
          obtain ⟨d, hd⟩ := h2
          rw [hg, h1] at hd
          exact Option.noConfusion hd
      rw [hb]
      simp only [Bool.false_eq_true, if_false]
      exact getNode_addNode_self gmid u _ (hg.trans h1)
  split
  · exact hmid g rfl
  · exact hmid _ (getNode_addNode_ne g m _ u (fun h => hum h.symm))

lemma getNode_ensure_ne (g : GraphState) (u m x : String) (ts : Int)
    (hxu : x ≠ u) (hxm : x ≠ m) :
    getNode (ensureNodes g u m ts) x = getNode g x := by
  unfold ensureNodes
  dsimp only
  split
  · split
    · rfl
    · exact getNode_addNode_ne _ _ _ _ (fun h => hxu h.symm)
  · split
    · exact getNode_addNode_ne _ _ _ _ (fun h => hxm h.symm)
    · rw [getNode_addNode_ne _ _ _ _ (fun h => hxu h.symm)]
      exact getNode_addNode_ne _ _ _ _ (fun h => hxm h.symm)

lemma updNodes_ok (g g2 : GraphState) (u m : String) (a : ℚ) (ts : Int)
    (h : updNodes g u m a ts = .ok g2) :
    ∃ dm du, getNode g m = some dm ∧ dm.node_type = NType.merchant ∧
      getNode (setNode g m (nodeUpd dm u a ts)) u = some du ∧
      du.node_type = NType.user ∧
      g2 = setNode (setNode g m (nodeUpd dm u a ts)) u (nodeUpd du m a ts) := by
  unfold updNodes at h
  cases h1 : getNode g m with
  | none => rw [h1] at h; exact Except.noConfusion h
  | some dm =>
    rw [h1] at h
    dsimp only at h
    by_cases h2 : dm.node_type = NType.merchant
    · rw [if_pos h2] at h
      cases h3 : getNode (setNode g m (nodeUpd dm u a ts)) u with
      | none => rw [h3] at h; exact Except.noConfusion h
      | some du =>
        rw [h3] at h
        dsimp only at h
        by_cases h4 : du.node_type = NType.user
        · rw [if_pos h4] at h
          injection h with h5
          exact ⟨dm, du, rfl, h2, h3, h4, h5.symm⟩
        · rw [if_neg h4] at h; exact Except.noConfusion h
    · rw [if_neg h2] at h; exact Except.noConfusion h

lemma add_ok_elim (g g' : GraphState) (u m : String) (a : ℚ) (ts : Int)
    (h : add_transaction_edge g u m a ts = .ok g') :
    ∃ g2, updNodes (ensureNodes g u m ts) u m a ts = .ok g2 ∧
      g' = invalidate_cache (updEdgeFlow g2 u m a ts) m u := by
  unfold add_transaction_edge at h
  cases h1 : updNodes (ensureNodes g u m ts) u m a ts with
  | error e => rw [h1] at h; exact Except.noConfusion h
  | ok g2 =>
    rw [h1] at h
    injection h with h2
    exact ⟨g2, rfl, h2.symm⟩

lemma add_ok_cache (g g' : GraphState) (u m : String) (a : ℚ) (ts : Int)
    (h : add_transaction_edge g u m a ts = .ok g') :
    g'.risk_cache = g.risk_cache.filter
      (fun kv => !(strContains m kv.1 || strContains u kv.1)) := by
  obtain ⟨g2, h1, h2⟩ := add_ok_elim g g' u m a ts h
  obtain ⟨dm, du, _, _, _, _, h3⟩ := updNodes_ok _ g2 u m a ts h1
  subst h2 h3
  rw [invalidate_cache_cache, updEdgeFlow_cache, setNode_cache, setNode_cache,
    ensureNodes_cache]

lemma add_ok_edges (g g' : GraphState) (u m : String) (a : ℚ) (ts : Int)
    (h : add_transaction_edge g u m a ts = .ok g') :
    g'.edges =
      match findEdgeL g.edges u m with
      | some e => setEdgeL g.edges u m (edgeUpd e a ts)
      | none => g.edges ++ [((u, m), newEdge a ts)] := by
  obtain ⟨g2, h1, h2⟩ := add_ok_elim g g' u m a ts h
  obtain ⟨dm, du, _, _, _, _, h3⟩ := updNodes_ok _ g2 u m a ts h1
  subst h2 h3
  rw [invalidate_cache_edges, updEdgeFlow_edges, setNode_edges, setNode_edges,
    ensureNodes_edges]

/-- How one successful call transforms a single node's attributes. -/
def nodeStep (d0 : Option NodeData) (ts : Int) (d1 : Option NodeData) : Prop :=
  match d0 with
  | none => ∃ d, d1 = some d ∧ d.first_seen = ts ∧ d.last_seen = ts
  | some d => ∃ d', d1 = some d' ∧ d'.first_seen = d.first_seen ∧
      d'.last_seen = max d.last_seen ts

lemma add_ok_nodes (g g' : GraphState) (u m : String) (a : ℚ) (ts : Int)
    (h : add_transaction_edge g u m a ts = .ok g') :
    u ≠ m ∧
    (∀ x, x ≠ u → x ≠ m → getNode g' x = getNode g x) ∧
    nodeStep (getNode g m) ts (getNode g' m) ∧
    nodeStep (getNode g u) ts (getNode g' u) := by
  obtain ⟨g2, h1, h2⟩ := add_ok_elim g g' u m a ts h
  obtain ⟨dm, du, hdm, hdmT, hdu, hduT, h3⟩ := updNodes_ok _ g2 u m a ts h1
  have hnodes : g'.nodes = g2.nodes := by
    subst h2
    rw [invalidate_cache_nodes, updEdgeFlow_nodes]
  have hgN : ∀ x, getNode g' x = getNode g2 x := by
    intro x
    unfold getNode
    rw [hnodes]
  have hum : u ≠ m := by
    intro hc
    subst hc
    rw [getNode_setNode_self _ _ _ _ hdm] at hdu
    injection hdu with h4
    rw [← h4] at hduT
    unfold nodeUpd at hduT
    dsimp at hduT
    rw [hdmT] at hduT
    exact NType.noConfusion hduT
  refine ⟨hum, ?_, ?_, ?_⟩
  · intro x hxu hxm
    rw [hgN x, h3, getNode_setNode_ne _ _ _ _ hxu, getNode_setNode_ne _ _ _ _ hxm]
    exact getNode_ensure_ne g u m x ts hxu hxm
  · have hm2 : getNode g2 m = some (nodeUpd dm u a ts) := by
      rw [h3, getNode_setNode_ne _ _ _ _ (fun hc => hum hc.symm)]
      exact getNode_setNode_self _ _ _ _ hdm
    rw [hgN m, hm2]
    have hens := getNode_ensure_m g u m ts
    cases h4 : getNode g m with
    | some d =>
      rw [h4] at hens
      rw [hens] at hdm
      injection hdm with h5
      subst h5
      exact ⟨_, rfl, rfl, rfl⟩
    | none =>
      rw [h4] at hens
      rw [hens] at hdm
      injection hdm with h5
      subst h5
      refine ⟨_, rfl, rfl, ?_⟩
      unfold nodeUpd newNode
      dsimp
      exact max_self ts
  · have hu2 : getNode g2 u = some (nodeUpd du m a ts) := by
      rw [h3]
      exact getNode_setNode_self _ _ _ _ hdu
    rw [hgN u, hu2]
    have hdu' : getNode (ensureNodes g u m ts) u = some du := by
      rw [← hdu]
      exact (getNode_setNode_ne _ _ _ _ hum).symm
    have hens := getNode_ensure_u g u m ts hum
    cases h4 : getNode g u with
    | some d =>
      rw [h4] at hens
      rw [hens] at hdu'
      injection hdu' with h5
      subst h5
      exact ⟨_, rfl, rfl, rfl⟩
    | none =>
      rw [h4] at hens
      rw [hens] at hdu'
      injection hdu' with h5
      subst h5
      refine ⟨_, rfl, rfl, ?_⟩
      unfold nodeUpd newNode
      dsimp
      exact max_self ts

/-! Evolution of a node's `first_seen`/`last_seen` over a call history. -/

/-- How a node's attributes after a history relate to its attributes
before it, given the touching timestamps of the history. -/
def nodeEvolves (d0 : Option NodeData) (l : List Int) (d1 : Option NodeData) :
    Prop :=
  match d0, l with
  | none, [] => d1 = none
  | none, t :: ts => ∃ d, d1 = some d ∧ d.first_seen = t ∧
      d.last_seen = List.foldl max t ts
  | some d, l => ∃ d', d1 = some d' ∧ d'.first_seen = d.first_seen ∧
      d'.last_seen = List.foldl max d.last_seen l

lemma tsTouching_cons (x : String) (c : Call) (cs : List Call) :
    tsTouching x (c :: cs) =
      if c.user = x ∨ c.merchant = x then c.ts :: tsTouching x cs
      else tsTouching x cs := by
  unfold tsTouching
  by_cases h : c.user = x ∨ c.merchant = x
  · rw [if_pos h]
    rw [List.filter_cons_of_pos]
    · rfl
    · simpa using h
  · rw [if_neg h]
    rw [List.filter_cons_of_neg]
    simpa using h

lemma le_foldl_max (l : List Int) (a : Int) : a ≤ List.foldl max a l := by
  induction l generalizing a with
  | nil => exact le_refl a
  | cons x xs ih => exact le_trans (le_max_left a x) (ih (max a x))

lemma runCalls_nodeEvolves (cs : List Call) :
    ∀ g g' : GraphState, runCalls g cs = .ok g' →
      ∀ x, nodeEvolves (getNode g x) (tsTouching x cs) (getNode g' x) := by
  induction cs with
  | nil =>
    intro g g' h x
    unfold runCalls at h
    injection h with h1
    subst h1
    cases h0 : getNode g x with
    | none => exact rfl
    | some d => exact ⟨d, rfl, rfl, rfl⟩
  | cons c cs ih =>
    intro g g' h x
    unfold runCalls at h
    cases h1 : add_transaction_edge g c.user c.merchant c.amount c.ts with
    | error e => rw [h1] at h; exact Except.noConfusion h
    | ok g1 =>
      rw [h1] at h
      obtain ⟨hne, huntouched, hm, hu⟩ := add_ok_nodes g g1 c.user c.merchant
        c.amount c.ts h1
      have ih' := ih g1 g' h x
      rw [tsTouching_cons]
      by_cases hxu : c.user = x
      · subst hxu
        rw [if_pos (Or.inl rfl)]
        cases h4 : getNode g c.user with
        | none =>
          rw [h4] at hu
          obtain ⟨d, hd1, hd2, hd3⟩ := hu
          rw [hd1] at ih'
          obtain ⟨d', hd4, hd5, hd6⟩ := ih'
          exact ⟨d', hd4, by rw [hd5, hd2], by rw [hd6, hd3]⟩
        | some d =>
          rw [h4] at hu
          obtain ⟨d1, hd1, hd2, hd3⟩ := hu
          rw [hd1] at ih'
          obtain ⟨d', hd4, hd5, hd6⟩ := ih'
          refine ⟨d', hd4, by rw [hd5, hd2], ?_⟩
          rw [hd6, hd3]
          rfl
      · by_cases hxm : c.merchant = x
        · subst hxm
          rw [if_pos (Or.inr rfl)]
          cases h4 : getNode g c.merchant with
          | none =>
            rw [h4] at hm
            obtain ⟨d, hd1, hd2, hd3⟩ := hm
            rw [hd1] at ih'
            obtain ⟨d', hd4, hd5, hd6⟩ := ih'
            exact ⟨d', hd4, by rw [hd5, hd2], by rw [hd6, hd3]⟩
          | some d =>
            rw [h4] at hm
            obtain ⟨d1, hd1, hd2, hd3⟩ := hm
            rw [hd1] at ih'
            obtain ⟨d', hd4, hd5, hd6⟩ := ih'
            refine ⟨d', hd4, by rw [hd5, hd2], ?_⟩
            rw [hd6, hd3]
            rfl
        · rw [if_neg (by intro hc; cases hc with
            | inl h5 => exact hxu h5
            | inr h5 => exact hxm h5)]
          rw [← huntouched x (fun hc => hxu hc.symm) (fun hc => hxm hc.symm)]
          exact ih'

lemma getNode_emptyState (x : String) : getNode emptyState x = none := rfl

/-! Reachable analyzer states and the cache-score invariant. -/

/-- States reachable from a fresh analyzer through its two public
operations (any metric oracle, any inputs, any clock readings). -/
inductive Reachable : GraphState → Prop
  | init : Reachable emptyState
  | record (g g' : GraphState) (u m : String) (a : ℚ) (ts : Int) :
      Reachable g → add_transaction_edge g u m a ts = .ok g' → Reachable g'
  | analyze (g : GraphState) (O : Oracle) (m : String) (u : Option String)
      (now : Int) : Reachable g →
      Reachable (analyze_merchant_risk O g m u now).2

/-- Every cached result has a risk score in the unit interval. -/
def CacheScoresOk (g : GraphState) : Prop :=
  ∀ kv ∈ g.risk_cache, 0 ≤ (kv.2.1).risk_score ∧ (kv.2.1).risk_score ≤ 1

lemma analyzeMain_ok_score (O : Oracle) (g : GraphState) (m : String)
    (u : Option String) (r : RiskResult) (h : analyzeMain O g m u = .ok r) :
    0 ≤ r.risk_score ∧ r.risk_score ≤ 1 := by
  unfold analyzeMain at h
  cases h1 : relContribution g u m with
  | error e => rw [h1] at h; exact Except.noConfusion h
  | ok rel =>
    rw [h1] at h
    dsimp only at h
    injection h with h2
    subst h2
    dsimp only
    constructor
    · exact le_min (by norm_num) (le_max_left 0 _)
    · exact min_le_left 1 _

lemma cacheStore_mem (g : GraphState) (k : String) (r : RiskResult) (now : Int)
    (kv : String × (RiskResult × Int))
    (h : kv ∈ (cacheStore g k r now).risk_cache) :
    kv ∈ g.risk_cache ∨ kv = (k, (r, now)) := by
  unfold cacheStore at h
  split at h
  · dsimp only at h
    rw [List.mem_map] at h
    obtain ⟨kv0, hmem, heq⟩ := h
    by_cases h2 : kv0.1 == k
    · rw [if_pos h2] at heq
      exact Or.inr heq.symm
    · rw [if_neg h2] at heq
      subst heq
      exact Or.inl hmem
  · dsimp only at h
    rw [List.mem_append] at h
    cases h with
    | inl h2 => exact Or.inl h2
    | inr h2 =>
      rw [List.mem_singleton] at h2
      exact Or.inr h2

lemma freshCached_some (g : GraphState) (k : String) (now : Int) (r : RiskResult)
    (h : freshCached g k now = some r) : ∃ kv ∈ g.risk_cache, kv.2.1 = r := by
  unfold freshCached at h
  cases h1 : g.risk_cache.find? (fun kv => kv.1 == k) with
  | none => rw [h1] at h; exact Option.noConfusion h
  | some kv =>
    rw [h1] at h
    dsimp only at h
    by_cases h2 : (now - kv.2.2).emod 86400 < cache_ttl
    · rw [if_pos h2] at h
      injection h with h3
      exact ⟨kv, List.mem_of_find?_eq_some h1, h3⟩
    · rw [if_neg h2] at h
      exact Option.noConfusion h

lemma reachable_cacheOk (g : GraphState) (h : Reachable g) : CacheScoresOk g := by
  induction h with
  | init => intro kv hkv; exact absurd hkv (List.not_mem_nil kv)
  | record g g' u m a ts hr hok ih =>
    intro kv hkv
    rw [add_ok_cache g g' u m a ts hok] at hkv
    exact ih kv (List.mem_of_mem_filter hkv)
  | analyze g O m u now hr ih =>
    intro kv hkv
    unfold analyze_merchant_risk at hkv
    cases h1 : freshCached g (cacheKey m u) now with
    | some r => rw [h1] at hkv; exact ih kv hkv
    | none =>
      rw [h1] at hkv
      unfold analyzeUncached at hkv
      by_cases h2 : hasNodeB g m = false
      · rw [if_pos h2] at hkv
        exact ih kv hkv
      · rw [if_neg h2] at hkv
        cases h3 : analyzeMain O g m u with
        | ok r =>
          rw [h3] at hkv
          dsimp only at hkv
          rcases cacheStore_mem g (cacheKey m u) r now kv hkv with h4 | h4
          · exact ih kv h4
          · rw [h4]
            exact analyzeMain_ok_score O g m u r h3
        | error e =>
          rw [h3] at hkv
          exact ih kv hkv

/-! Edge bookkeeping invariant and accumulation over call sequences. -/

/-- The bookkeeping invariant of the spec: on every edge, `total_amount`
is the exact sum of `amounts` and `transaction_count` its length. -/
def EdgeInv (g : GraphState) : Prop :=
  ∀ e ∈ g.edges, e.2.total_amount = e.2.amounts.sum ∧
    e.2.transaction_count = e.2.amounts.length

lemma edgeInv_step (g g' : GraphState) (u m : String) (a : ℚ) (ts : Int)
    (hinv : EdgeInv g) (hok : add_transaction_edge g u m a ts = .ok g') :
    EdgeInv g' := by
  intro e hmem
  rw [add_ok_edges g g' u m a ts hok] at hmem
  cases h1 : findEdgeL g.edges u m with
  | some e0 =>
    rw [h1] at hmem
    dsimp only at hmem
    unfold setEdgeL at hmem
    rw [List.mem_map] at hmem
    obtain ⟨e1, hmem1, heq⟩ := hmem
    by_cases h2 : edgeMatch e1.1 u m
    · rw [if_pos h2] at heq
      subst heq
      obtain ⟨k0, hmem0⟩ := findEdgeL_some_mem g.edges u m e0 h1
      obtain ⟨hs, hc⟩ := hinv (k0, e0) hmem0
      dsimp only at hs hc
      unfold edgeUpd
      dsimp only
      constructor
      · rw [hs, List.sum_append]
        simp
      · rw [hc, List.length_append]
        simp
    · rw [if_neg h2] at heq
      subst heq
      exact hinv e1 hmem1
  | none =>
    rw [h1] at hmem
    dsimp only at hmem
    rw [List.mem_append] at hmem
    cases hmem with
    | inl h2 => exact hinv e h2
    | inr h2 =>
      rw [List.mem_singleton] at h2
      subst h2
      unfold newEdge
      constructor
      · simp
      · simp

lemma runCalls_same_pair (cs : List Call) :
    ∀ (g g' : GraphState) (u m : String) (e0 : EdgeData),
      (∀ c ∈ cs, c.user = u ∧ c.merchant = m) →
      findEdge g u m = some e0 →
      runCalls g cs = .ok g' →
      ∃ e, findEdge g' u m = some e ∧
        e.transaction_count = e0.transaction_count + cs.length ∧
        e.total_amount = e0.total_amount + (cs.map Call.amount).sum := by
  induction cs with
  | nil =>
    intro g g' u m e0 hall hfind h
    unfold runCalls at h
    injection h with h1
    subst h1
    exact ⟨e0, hfind, by simp, by simp⟩
  | cons c cs ih =>
    intro g g' u m e0 hall hfind h
    obtain ⟨hcu, hcm⟩ := hall c (List.mem_cons_self c cs)
    unfold runCalls at h
    cases h1 : add_transaction_edge g c.user c.merchant c.amount c.ts with
    | error e => rw [h1] at h; exact Except.noConfusion h
    | ok g1 =>
      rw [h1] at h
      have hedges := add_ok_edges g g1 c.user c.merchant c.amount c.ts h1
      rw [hcu, hcm] at hedges
      have hfind1 : findEdge g1 u m = some (edgeUpd e0 c.amount c.ts) := by
        unfold findEdge
        rw [hedges]
        unfold findEdge at hfind
        rw [hfind]
        exact findEdgeL_setEdgeL_self g.edges u m _ e0 hfind
      obtain ⟨e, he1, he2, he3⟩ := ih g1 g' u m (edgeUpd e0 c.amount c.ts)
        (fun c2 hc2 => hall c2 (List.mem_cons_of_mem c hc2)) hfind1 h
      refine ⟨e, he1, ?_, ?_⟩
      · rw [he2]
        unfold edgeUpd
        dsimp only
        rw [List.length_cons]
        ring
      · rw [he3]
        unfold edgeUpd
        dsimp only
        rw [List.map_cons, List.sum_cons]
        ring

/-! Claim theorems. -/

/-- C1: for every reachable graph state and every input (merchant id,
optional user id, clock reading) and every metric oracle, the risk score
returned by `analyze_merchant_risk` lies in the closed interval [0, 1] —
on the normal path (explicit clamp), the unknown-merchant short-circuit
(0.1), the internal-error fallback (0.5), and the cache-hit path (whose
entries were all produced by the clamp). -/
theorem C1_risk_score_bounds (O : Oracle) (g : GraphState) (m : String)
    (u : Option String) (now : Int) (h : Reachable g) :
    0 ≤ (analyze_merchant_risk O g m u now).1.risk_score ∧
      (analyze_merchant_risk O g m u now).1.risk_score ≤ 1 := by
  have hc := reachable_cacheOk g h
  unfold analyze_merchant_risk
  cases h1 : freshCached g (cacheKey m u) now with
  | some r =>
    obtain ⟨kv, hmem, hr⟩ := freshCached_some g _ now r h1
    dsimp only
    rw [← hr]
    exact hc kv hmem
  | none =>
    unfold analyzeUncached
    by_cases h2 : hasNodeB g m = false
    · rw [if_pos h2]
      dsimp only [unknownResult]
      norm_num
    · rw [if_neg h2]
      cases h3 : analyzeMain O g m u with
      | ok r =>
        dsimp only
        exact analyzeMain_ok_score O g m u r h3
      | error e =>
        dsimp only [degradedResult]
        norm_num

/-- Witness for C1 at a concrete reachable state and input. -/
theorem C1_risk_score_bounds_witness :
    0 ≤ (analyze_merchant_risk errOracle emptyState ("M") none 0).1.risk_score ∧
      (analyze_merchant_risk errOracle emptyState ("M") none 0).1.risk_score ≤ 1 :=
  C1_risk_score_bounds errOracle emptyState ("M") none 0 Reachable.init

/-
Concrete instantiations evaluate analyzer runs inside `decide`/`rfl`
proofs; the arithmetic of `ℚ` is restored to its definitional behaviour
for that purpose (Batteries marks it irreducible purely as an elaboration
hint).
-/
attribute [local semireducible] Rat.add Rat.mul Rat.sub Rat.inv

/-- C2: every successful `add_transaction_edge` call preserves the
invariant that each edge's `total_amount` is the exact sum of its
`amounts` list and its `transaction_count` its length; and a sequence of
n calls for the same (user, merchant) pair, starting with no edge between
them, leaves an edge with `transaction_count` n and `total_amount` the
exact sum of the recorded amounts. -/
theorem C2_edge_accumulation :
    (∀ (g g' : GraphState) (u m : String) (a : ℚ) (ts : Int),
      EdgeInv g → add_transaction_edge g u m a ts = .ok g' → EdgeInv g') ∧
    (∀ (cs : List Call) (g g' : GraphState) (u m : String),
      (∀ c ∈ cs, c.user = u ∧ c.merchant = m) →
      findEdge g u m = none →
      runCalls g cs = .ok g' → cs ≠ [] →
      ∃ e, findEdge g' u m = some e ∧ e.transaction_count = cs.length ∧
        e.total_amount = (cs.map Call.amount).sum) := by
  constructor
  · exact fun g g' u m a ts hinv hok => edgeInv_step g g' u m a ts hinv hok
  · intro cs g g' u m hall hnone hrun hne
    cases cs with
    | nil => exact absurd rfl hne
    | cons c cs =>
      obtain ⟨hcu, hcm⟩ := hall c (List.mem_cons_self c cs)
      unfold runCalls at hrun
      cases h1 : add_transaction_edge g c.user c.merchant c.amount c.ts with
      | error e => rw [h1] at hrun; exact Except.noConfusion hrun
      | ok g1 =>
        rw [h1] at hrun
        have hedges := add_ok_edges g g1 c.user c.merchant c.amount c.ts h1
        rw [hcu, hcm] at hedges
        have hfind1 : findEdge g1 u m = some (newEdge c.amount c.ts) := by
          unfold findEdge
          rw [hedges]
          unfold findEdge at hnone
          rw [hnone]
          dsimp only
          rw [findEdgeL_append, hnone]
          rw [edgeMatch_self]
          rfl
        obtain ⟨e, he1, he2, he3⟩ := runCalls_same_pair cs g1 g' u m
          (newEdge c.amount c.ts)
          (fun c2 hc2 => hall c2 (List.mem_cons_of_mem c hc2)) hfind1 hrun
        refine ⟨e, he1, ?_, ?_⟩
        · rw [he2]
          unfold newEdge
          dsimp only
          rw [List.length_cons]
          ring
        · rw [he3]
          unfold newEdge
          dsimp only
          rw [List.map_cons, List.sum_cons]

/-- Resulting state of a successful call sequence (used to instantiate
theorems at concrete histories). -/
def okState (e : Except String GraphState) : GraphState :=
  match e with
  | .ok g => g
  | .error _ => emptyState

/-- Two transactions between the same user and merchant. -/
def csW2 : List Call := [⟨"U", "M", 2, 0⟩, ⟨"U", "M", 3, 5⟩]

/-- State after running `csW2` from a fresh analyzer. -/
def GW2 : GraphState := okState (runCalls emptyState csW2)

/-- Witness for C2 at a concrete two-call history: the invariant is
preserved by the first call and the edge accumulates count 2 and total
5 = 2 + 3. -/
theorem C2_edge_accumulation_witness :
    EdgeInv (okState (add_transaction_edge emptyState ("U") ("M") 2 0)) ∧
    ∃ e, findEdge GW2 ("U") ("M") = some e ∧ e.transaction_count = 2 ∧
      e.total_amount = 5 := by
  constructor
  · exact C2_edge_accumulation.1 emptyState
      (okState (add_transaction_edge emptyState ("U") ("M") 2 0))
      ("U") ("M") 2 0 (by intro e he; exact absurd he (List.not_mem_nil e)) rfl
  · obtain ⟨e, h1, h2, h3⟩ := C2_edge_accumulation.2 csW2 emptyState GW2
      ("U") ("M") (by decide) rfl rfl (by decide)
    exact ⟨e, h1, h2.trans (by decide), h3.trans (by decide)⟩

/-- C3: `analyze_merchant_risk` never propagates an internal computation
error: whenever the analysis body raises (and no fresh cache entry
bypasses it), the call still returns a result — with risk score exactly
0.5 and factor list `["Analysis error"]` — and leaves the state
unchanged.  (The embedded function is total by construction; this theorem
pins down the fail-safe result the handler produces.) -/
theorem C3_failsafe (O : Oracle) (g : GraphState) (m : String)
    (u : Option String) (now : Int) (e : String)
    (h0 : hasNodeB g m = true)
    (h1 : freshCached g (cacheKey m u) now = none)
    (h2 : analyzeMain O g m u = .error e) :
    analyze_merchant_risk O g m u now = (degradedResult m e, g) ∧
    (analyze_merchant_risk O g m u now).1.risk_score = 1/2 ∧
    (analyze_merchant_risk O g m u now).1.factors = [Factor.analysisError] := by
  have hmain : analyze_merchant_risk O g m u now = (degradedResult m e, g) := by
    unfold analyze_merchant_risk
    rw [h1]
    unfold analyzeUncached
    have hcond : ¬(hasNodeB g m = false) := by
      rw [h0]
      exact fun hc => Bool.noConfusion hc
    rw [if_neg hcond, h2]
  refine ⟨hmain, ?_, ?_⟩
  · rw [hmain]
    rfl
  · rw [hmain]
    rfl

/-- A directly-constructed state on which the analysis body raises: the
(U, M) edge carries `transaction_count = 0`, so the relationship
analysis divides by zero exactly as the Python would. -/
def G3 : GraphState :=
  ⟨[("M", ⟨NType.merchant, 1, 1, ["U0"], 0, 0⟩),
    ("U", ⟨NType.user, 0, 0, [], 0, 0⟩)],
   [(("U", "M"), ⟨0, 0, 0, 0, []⟩)], [], []⟩

/-- Witness for C3 at a concrete erroring input. -/
theorem C3_failsafe_witness :
    analyze_merchant_risk errOracle G3 ("M") (some ("U")) 0 =
      (degradedResult ("M") ("ZeroDivisionError"), G3) :=
  (C3_failsafe errOracle G3 ("M") (some ("U")) 0 ("ZeroDivisionError")
    rfl rfl rfl).1

/-- C4: immediately after any successful `add_transaction_edge` call, the
cache holds no entry whose key contains the merchant id or the user id as
a substring. -/
theorem C4_cache_invalidation (g g' : GraphState) (u m : String) (a : ℚ)
    (ts : Int) (h : add_transaction_edge g u m a ts = .ok g') :
    ∀ kv ∈ g'.risk_cache,
      strContains m kv.1 = false ∧ strContains u kv.1 = false := by
  intro kv hkv
  rw [add_ok_cache g g' u m a ts h] at hkv
  have h2 := List.of_mem_filter hkv
  cases hm : strContains m kv.1 with
  | false =>
    cases hu : strContains u kv.1 with
    | false => exact ⟨rfl, rfl⟩
    | true => rw [hm, hu] at h2; exact Bool.noConfusion h2
  | true => rw [hm] at h2; exact Bool.noConfusion h2

/-- A state holding a cached analysis for merchant M plus one under an
unrelated key. -/
def GW4 : GraphState :=
  ⟨[], [], [],
   [("merchant_risk_M_none", (unknownResult ("M"), 0)),
    ("other", (unknownResult ("X"), 0))]⟩

/-- State after recording a (U, M) transaction on `GW4`. -/
def GW4' : GraphState := okState (add_transaction_edge GW4 ("U") ("M") 1 0)

/-- Witness for C4 at the surviving concrete entry: the M entry is gone
and the surviving key contains neither identity. -/
theorem C4_cache_invalidation_witness :
    strContains ("M") ("other") = false ∧
    strContains ("U") ("other") = false :=
  C4_cache_invalidation GW4 GW4' ("U") ("M") 1 0 rfl
    ("other", (unknownResult ("X"), 0)) (by decide)

/-- State after recording one (U1, A) transaction from fresh. -/
def G5 : GraphState := okState (add_transaction_edge emptyState ("U1") ("A") 1 0)

/-- State after additionally analyzing merchant A in the context of user
`"X_none"`, which caches a result under key `merchant_risk_A_X_none`. -/
def G5b : GraphState :=
  (analyze_merchant_risk errOracle G5 ("A") (some ("X_none")) 0).2

/-- C5 counterexample: in the reachable state `G5b` the merchant `A_X`
has no node, yet `analyze_merchant_risk` does not return the
unknown-merchant result — the query's composed cache key
`merchant_risk_A_X_none` collides with the entry cached for merchant `A`
with user `X_none`, and that entry is served instead. -/
theorem C5_counterexample :
    add_transaction_edge emptyState ("U1") ("A") 1 0 = .ok G5 ∧
    hasNodeB G5b ("A_X") = false ∧
    (analyze_merchant_risk errOracle G5b ("A_X") none 0).1.factors =
      [Factor.newMerchantRelationship] ∧
    [Factor.newMerchantRelationship] ≠ [Factor.unknownMerchant] ∧
    (analyze_merchant_risk errOracle G5b ("A_X") none 0).1.merchant_id = ("A") := by
  refine ⟨rfl, rfl, ?_, by decide, ?_⟩ <;> decide

/-- C5 amended: for every merchant id with no node in the graph, provided
the cache holds no entry under the query's composed key string,
`analyze_merchant_risk` returns exactly the unknown-merchant result
(score 0.1, factor list `["Unknown merchant"]`), short-circuits without
touching the state, and two such calls with no intervening mutation
return identical results. -/
theorem C5_unknown_merchant (O : Oracle) (g : GraphState) (m : String)
    (u : Option String) (now now' : Int)
    (h1 : hasNodeB g m = false)
    (h2 : g.risk_cache.find? (fun kv => kv.1 == cacheKey m u) = none) :
    analyze_merchant_risk O g m u now = (unknownResult m, g) ∧
    analyze_merchant_risk O g m u now' = (unknownResult m, g) ∧
    (unknownResult m).risk_score = 1/10 ∧
    (unknownResult m).factors = [Factor.unknownMerchant] := by
  have hf : ∀ t : Int, freshCached g (cacheKey m u) t = none := by
    intro t
    unfold freshCached
    rw [h2]
  have hmain : ∀ t : Int, analyze_merchant_risk O g m u t = (unknownResult m, g) := by
    intro t
    unfold analyze_merchant_risk
    rw [hf t]
    unfold analyzeUncached
    rw [if_pos h1]
  exact ⟨hmain now, hmain now', rfl, rfl⟩

/-- Witness for the amended C5 on a fresh analyzer. -/
theorem C5_unknown_merchant_witness :
    analyze_merchant_risk errOracle emptyState ("NEVER_SEEN") none 0 =
      (unknownResult ("NEVER_SEEN"), emptyState) ∧
    analyze_merchant_risk errOracle emptyState ("NEVER_SEEN") none 7 =
      (unknownResult ("NEVER_SEEN"), emptyState) ∧
    (unknownResult ("NEVER_SEEN")).risk_score = 1/10 ∧
    (unknownResult ("NEVER_SEEN")).factors = [Factor.unknownMerchant] :=
  C5_unknown_merchant errOracle emptyState ("NEVER_SEEN") none 0 7 rfl rfl

/-- State after recording a single transaction with a negative amount. -/
def G6 : GraphState := okState (add_transaction_edge emptyState ("U") ("M") (-1) 0)

/-- C6 counterexample: a negative amount is not rejected — the call
succeeds and silently records the amount -1 on the edge. -/
theorem C6_counterexample :
    add_transaction_edge emptyState ("U") ("M") (-1) 0 = .ok G6 ∧
    findEdge G6 ("U") ("M") = some ⟨1, -1, 0, 0, [-1]⟩ := by
  exact ⟨rfl, rfl⟩

/-- C6 amended: `add_transaction_edge` performs no amount validation — any
amount, negative included, is recorded unchanged (see the counterexample).
The only failure it can surface is the `KeyError` raised when an identity
is reused in the wrong role; whenever the user id is not currently a
merchant node, the merchant id not currently a user node, and the two ids
differ, the call succeeds for every amount and only grows the state:
existing nodes and edges survive and the (user, merchant) edge exists
afterwards. -/
theorem C6_no_validation (g : GraphState) (u m : String) (a : ℚ) (ts : Int)
    (hum : u ≠ m)
    (hu : ∀ d, getNode g u = some d → d.node_type = NType.user)
    (hm : ∀ d, getNode g m = some d → d.node_type = NType.merchant) :
    ∃ g', add_transaction_edge g u m a ts = .ok g' ∧
      (∀ x, hasNodeB g x = true → hasNodeB g' x = true) ∧
      (∀ x y, (findEdge g x y).isSome = true → (findEdge g' x y).isSome = true) ∧
      (findEdge g' u m).isSome = true := by
  have hEm : ∃ dm, getNode (ensureNodes g u m ts) m = some dm ∧
      dm.node_type = NType.merchant := by
    have h := getNode_ensure_m g u m ts
    cases h4 : getNode g m with
    | some d => rw [h4] at h; exact ⟨d, h, hm d h4⟩
    | none => rw [h4] at h; exact ⟨newNode NType.merchant ts, h, rfl⟩
  obtain ⟨dm, hdm, hdmT⟩ := hEm
  have hEu : ∃ du, getNode (setNode (ensureNodes g u m ts) m
      (nodeUpd dm u a ts)) u = some du ∧ du.node_type = NType.user := by
    rw [getNode_setNode_ne _ _ _ _ hum]
    have h := getNode_ensure_u g u m ts hum
    cases h4 : getNode g u with
    | some d => rw [h4] at h; exact ⟨d, h, hu d h4⟩
    | none => rw [h4] at h; exact ⟨newNode NType.user ts, h, rfl⟩
  obtain ⟨du, hdu, hduT⟩ := hEu
  have hupd : updNodes (ensureNodes g u m ts) u m a ts =
      .ok (setNode (setNode (ensureNodes g u m ts) m (nodeUpd dm u a ts)) u
        (nodeUpd du m a ts)) := by
    unfold updNodes
    rw [hdm]
    dsimp only
    rw [if_pos hdmT, hdu]
    dsimp only
    rw [if_pos hduT]
  have hok : add_transaction_edge g u m a ts = .ok
      (invalidate_cache (updEdgeFlow (setNode (setNode (ensureNodes g u m ts) m
        (nodeUpd dm u a ts)) u (nodeUpd du m a ts)) u m a ts) m u) := by
    unfold add_transaction_edge
    rw [hupd]
  obtain ⟨hne, hunt, hmS, huS⟩ := add_ok_nodes g _ u m a ts hok
  have hedges := add_ok_edges g _ u m a ts hok
  refine ⟨_, hok, ?_, ?_, ?_⟩
  · intro x hx
    by_cases hxu : x = u
    · subst hxu
      rw [hasNodeB_iff] at hx ⊢
      obtain ⟨d, hd⟩ := hx
      unfold nodeStep at huS
      rw [hd] at huS
      obtain ⟨d', hd', _, _⟩ := huS
      exact ⟨d', hd'⟩
    · by_cases hxm : x = m
      · subst hxm
        rw [hasNodeB_iff] at hx ⊢
        obtain ⟨d, hd⟩ := hx
        unfold nodeStep at hmS
        rw [hd] at hmS
        obtain ⟨d', hd', _, _⟩ := hmS
        exact ⟨d', hd'⟩
      · rw [hasNodeB_iff] at hx ⊢
        obtain ⟨d, hd⟩ := hx
        rw [hunt x hxu hxm]
        exact ⟨d, hd⟩
  · intro x y hxy
    unfold findEdge at hxy ⊢
    rw [hedges]
    cases h4 : findEdgeL g.edges u m with
    | some e0 =>
      dsimp only
      rw [findEdgeL_setEdgeL_isSome]
      exact hxy
    | none =>
      dsimp only
      rw [findEdgeL_append]
      cases h5 : findEdgeL g.edges x y with
      | some v => rfl
      | none => rw [h5] at hxy; exact Bool.noConfusion hxy
  · unfold findEdge
    rw [hedges]
    cases h4 : findEdgeL g.edges u m with
    | some e0 =>
      dsimp only
      rw [findEdgeL_setEdgeL_self g.edges u m (edgeUpd e0 a ts) e0 h4]
      rfl
    | none =>
      dsimp only
      rw [findEdgeL_append, h4, edgeMatch_self]
      rfl

/-- Witness for the amended C6: recording amount 7 between fresh ids. -/
theorem C6_no_validation_witness :
    ∃ g', add_transaction_edge emptyState ("U") ("M") 7 3 = .ok g' ∧
      (∀ x, hasNodeB emptyState x = true → hasNodeB g' x = true) ∧
      (∀ x y, (findEdge emptyState x y).isSome = true →
        (findEdge g' x y).isSome = true) ∧
      (findEdge g' ("U") ("M")).isSome = true :=
  C6_no_validation emptyState ("U") ("M") 7 3 (by decide)
    (fun d hd => by exact Option.noConfusion hd)
    (fun d hd => by exact Option.noConfusion hd)

/-- Two transactions touching merchant M with out-of-order timestamps. -/
def cs7 : List Call := [⟨"U", "M", 1, 5⟩, ⟨"U2", "M", 1, 3⟩]

/-- State after running `cs7` from a fresh analyzer. -/
def G7 : GraphState := okState (runCalls emptyState cs7)

/-- C7 counterexample: after the history `cs7` (timestamps 5 then 3), the
timestamps touching M are [5, 3] with minimum 3, yet `first_seen` of M is
5 — the source never updates `first_seen` after node creation, so it is
not the minimum of all timestamps seen. -/
theorem C7_counterexample :
    runCalls emptyState cs7 = .ok G7 ∧
    tsTouching ("M") cs7 = [5, 3] ∧
    (getNode G7 ("M")).map NodeData.first_seen = some 5 ∧
    List.foldl min (5 : Int) [3] = 3 ∧
    (5 : Int) ≠ 3 := by
  exact ⟨rfl, rfl, rfl, rfl, by decide⟩

/-- C7 amended: after any successful call history from a fresh analyzer,
a node's `last_seen` is the maximum of all timestamps touching it, while
its `first_seen` is the FIRST timestamp that touched it (which equals the
minimum only when timestamps arrive in non-decreasing order); and
`first_seen ≤ last_seen` holds for every node in every such state. -/
theorem C7_timestamps :
    (∀ (cs : List Call) (g : GraphState) (x : String) (t : Int) (ts : List Int),
      runCalls emptyState cs = .ok g → tsTouching x cs = t :: ts →
      ∃ d, getNode g x = some d ∧ d.first_seen = t ∧
        d.last_seen = List.foldl max t ts ∧ d.first_seen ≤ d.last_seen) ∧
    (∀ (cs : List Call) (g : GraphState) (x : String) (d : NodeData),
      runCalls emptyState cs = .ok g → getNode g x = some d →
      d.first_seen ≤ d.last_seen) := by
  constructor
  · intro cs g x t ts hrun hts
    have h := runCalls_nodeEvolves cs emptyState g hrun x
    rw [getNode_emptyState, hts] at h
    obtain ⟨d, hd1, hd2, hd3⟩ := h
    refine ⟨d, hd1, hd2, hd3, ?_⟩
    rw [hd2, hd3]
    exact le_foldl_max ts t
  · intro cs g x d hrun hd
    have h := runCalls_nodeEvolves cs emptyState g hrun x
    rw [getNode_emptyState] at h
    cases hts : tsTouching x cs with
    | nil =>
      rw [hts] at h
      unfold nodeEvolves at h
      rw [h] at hd
      exact Option.noConfusion hd
    | cons t ts =>
      rw [hts] at h
      obtain ⟨d', hd1, hd2, hd3⟩ := h
      rw [hd] at hd1
      injection hd1 with h4
      subst h4
      rw [hd2, hd3]
      exact le_foldl_max ts t

/-- Witness for the amended C7 on the concrete history `cs7`. -/
theorem C7_timestamps_witness :
    ∃ d, getNode G7 ("M") = some d ∧ d.first_seen = 5 ∧
      d.last_seen = List.foldl max 5 [3] ∧ d.first_seen ≤ d.last_seen :=
  C7_timestamps.1 cs7 G7 ("M") 5 [3] rfl rfl

/-- State after two (·, M) transactions 1800 seconds apart. -/
def G8 : GraphState :=
  okState (runCalls emptyState [⟨"U1", "M", 1, 0⟩, ⟨"U2", "M", 1, 1800⟩])

/-- C8 counterexample: for merchant M with a 0.5-hour observed span and 2
transactions, the code computes `transactions_per_hour = 4` (dividing by
the raw 0.5-hour span), while the claimed formula
`count / max(time_span_hours, 1)` gives 2 — the divisor is only replaced
when the span is exactly zero, not floored at 1 hour. -/
theorem C8_counterexample :
    runCalls emptyState [⟨"U1", "M", 1, 0⟩, ⟨"U2", "M", 1, 1800⟩] = .ok G8 ∧
    (analyze_velocity G8 ("M")).metrics =
      some ⟨4, 4, 2, 1, 1/2⟩ ∧
    (2 : ℚ) / max ((1 : ℚ)/2) 1 = 2 ∧
    (4 : ℚ) ≠ 2 := by
  refine ⟨rfl, by decide, by decide, by decide⟩

/-- C8 amended: for every merchant node with at least one transaction,
the computed `transactions_per_hour` is the transaction count divided by
the stored `time_span_hours`, where `time_span_hours` is the raw span in
hours except that an exactly-zero span is replaced by 1 — spans strictly
between 0 and 1 hour are used as-is. -/
theorem C8_velocity_divisor (g : GraphState) (m : String) (d : NodeData)
    (h1 : getNode g m = some d) (h2 : d.node_type = NType.merchant)
    (h3 : d.total_transactions ≠ 0) :
    ∃ vm, (analyze_velocity g m).metrics = some vm ∧
      vm.time_span_hours =
        (if rawSpanHours d = 0 then 1 else rawSpanHours d) ∧
      vm.transactions_per_hour =
        (d.total_transactions : ℚ) / vm.time_span_hours := by
  unfold analyze_velocity
  rw [h1]
  dsimp only
  rw [if_pos ⟨h2, h3⟩]
  exact ⟨_, rfl, rfl, rfl⟩

/-- Witness for the amended C8 at the state `G8`. -/
theorem C8_velocity_divisor_witness :
    ∃ vm, (analyze_velocity G8 ("M")).metrics = some vm ∧
      vm.time_span_hours =
        (if rawSpanHours ⟨NType.merchant, 2, 2, ["U1", "U2"], 0, 1800⟩ = 0 then 1
         else rawSpanHours ⟨NType.merchant, 2, 2, ["U1", "U2"], 0, 1800⟩) ∧
      vm.transactions_per_hour =
        ((2 : Nat) : ℚ) / vm.time_span_hours :=
  C8_velocity_divisor G8 ("M") ⟨NType.merchant, 2, 2, ["U1", "U2"], 0, 1800⟩
    (by decide) rfl (by decide)

/-- A state holding one analysis cached at time 0 for merchant M. -/
def G9 : GraphState :=
  ⟨[], [], [], [("merchant_risk_M_none", (unknownResult ("M"), 0))]⟩

/-- C9: the code serves a cache entry computed a full day plus 10 seconds
earlier.  The staleness test uses the Python `timedelta.seconds`
attribute — the elapsed time modulo 86400 — instead of the total elapsed
seconds, so at 86410 seconds of age the check sees 10 < 3600 and returns
the cached result, contradicting the stated 3600-second TTL (and the
source's own `cache_ttl = 3600  # 1 hour cache`). -/
theorem C9_stale_cache_served :
    cache_ttl ≤ (86410 : Int) - 0 ∧
    ((86410 : Int) - 0).emod 86400 < cache_ttl ∧
    analyze_merchant_risk errOracle G9 ("M") none 86410 =
      (unknownResult ("M"), G9) := by
  exact ⟨by decide, by decide, rfl⟩

deriving instance DecidableEq for Except

/-- History: one (U1, M2) then one (U9, M2) transaction. -/
def cs10 : List Call := [⟨"U1", "M2", 10, 0⟩, ⟨"U9", "M2", 10, 0⟩]

/-- State after running `cs10` from a fresh analyzer. -/
def G10 : GraphState := okState (runCalls emptyState cs10)

/-- C10 counterexample: after recording one transaction between the new
user U9 and the existing merchant M2, the (U9, M2) edge exists, so the
relationship sub-check takes the existing-edge branch: it contributes 0
(not 0.1), produces no factors, and the full analysis emits no
"New merchant relationship" factor. -/
theorem C10_counterexample :
    runCalls emptyState cs10 = .ok G10 ∧
    analyze_user_merchant_relationship G10 ("U9") ("M2") =
      .ok ⟨0, [], some ⟨1, 10, 10, 0⟩⟩ ∧
    Factor.newMerchantRelationship ∉
      (analyze_merchant_risk errOracle G10 ("M2") (some ("U9")) 0).1.factors ∧
    (0 : ℚ) ≠ 1/10 := by
  refine ⟨rfl, by decide, by decide, by decide⟩

/-- C10 amended: the 0.1 "New merchant relationship" contribution arises
exactly when the analyzed (user, merchant) pair has no edge yet — i.e.
before any transaction between them is recorded; once the transaction is
recorded the edge exists and the sub-check no longer produces that factor
(contributing 0 for a single transaction, as the counterexample shows). -/
theorem C10_new_relationship (g : GraphState) (uid m : String)
    (h : findEdge g uid m = none) :
    analyze_user_merchant_relationship g uid m =
      .ok ⟨1/10, [Factor.newMerchantRelationship], none⟩ := by
  unfold analyze_user_merchant_relationship
  rw [h]

/-- Witness for the amended C10: analyzing a pair with no recorded
transaction. -/
theorem C10_new_relationship_witness :
    analyze_user_merchant_relationship emptyState ("U9") ("M2") =
      .ok ⟨1/10, [Factor.newMerchantRelationship], none⟩ :=
  C10_new_relationship emptyState ("U9") ("M2") rfl
